import Mathlib

/-!
Shallow embedding of the WebSocket connection / request-correlation layer of
the PingerAPP mobile client (`NMS_mobile/context/WebSocketContext.tsx`), and
a verification of the design-document claims about it.

The embedded code is the body of `WebSocketProvider`:
* `generateRequestId` (identifier generator),
* the two handler registries (`messageHandlersRef`, `connectionHandlersRef`,
  both JavaScript `Set`s, with `addMessageHandler` / `addConnectionHandler`),
* the connection manager (`connect`, `disconnect`, the `ws.onopen`,
  `ws.onmessage`, `ws.onclose` handlers, the per-request timeout callbacks),
* the request facade `sendRequest` backed by `pendingRequestsRef`
  (a JavaScript `Map` from request id to `{resolve, reject, timeout}`).

The stateful parts are embedded as pure step functions over an explicit
`WSState`.  Promise settlement is recorded in an append-only ledger
(`settleLog`), indexed by request id; handler fan-out and reconnect
scheduling are likewise recorded in append-only ledgers so that theorems can
talk about "what the code did" without modelling JavaScript callbacks.
Timers (`setTimeout` handles) are explicit: `setTimeout` allocates a fresh
handle into `activeTimers`, `clearTimeout` removes it, and a timer callback
can run only while its handle is still active — which is exactly the
single-threaded JavaScript guarantee the source relies on.
-/

namespace PingerApp

/-! ## Identifier generator (`generateRequestId`, source lines 41–47) -/

/-- One hex digit, as produced by JavaScript `v.toString(16)` for `v < 16`. -/
def hexChar (n : Nat) : Char := Nat.digitChar n

/-- The template literal of `generateRequestId`. -/
def uuidTemplate : String := "xxxxxxxx-xxxx-4xxx-yxxx-xxxxxxxxxxxx"

/-- The `.replace(/[xy]/g, (c) => ...)` walk of `generateRequestId`:
`src k` is the result of the `k`-th evaluation of `Math.random() * 16 | 0`,
an integer in `[0, 16)` because `Math.random()` ranges over `[0, 1)`.
For `c = 'x'` the digit is `r` itself, for `c = 'y'` it is `r & 0x3 | 0x8`. -/
def replaceXY (src : Nat → Nat) : List Char → Nat → List Char
  | [], _ => []
  | c :: cs, k =>
    if c = 'x' then hexChar (src k) :: replaceXY src cs (k + 1)
    else if c = 'y' then hexChar (src k &&& 3 ||| 8) :: replaceXY src cs (k + 1)
    else c :: replaceXY src cs k

/-- `generateRequestId`, with the stream of `Math.random() * 16 | 0` outcomes
made explicit as `src`. -/
def generateRequestId (src : Nat → Nat) : String :=
  String.mk (replaceXY src uuidTemplate.toList 0)

/-- Spec-side predicate: a lowercase hexadecimal digit (the alphabet that
JavaScript `toString(16)` emits for a nibble). -/
def isHexDigit (c : Char) : Bool :=
  ('0' ≤ c && c ≤ '9') || ('a' ≤ c && c ≤ 'f')

/-- Spec-side predicate, following the words of the claim: a UUID-v4-shaped
token — 32 hex digits grouped 8-4-4-4-12 (hyphens exactly at positions
8, 13, 18, 23 of a 36-character string), the version nibble (position 14)
fixed to `4`, and the variant nibble (position 19) in `{8, 9, a, b}`. -/
def uuidV4Shaped (s : String) : Prop :=
  s.toList.length = 36 ∧
  (∀ i ∈ ([8, 13, 18, 23] : List Nat), s.toList.getD i ' ' = '-') ∧
  s.toList.getD 14 ' ' = '4' ∧
  s.toList.getD 19 ' ' ∈ (['8', '9', 'a', 'b'] : List Char) ∧
  (∀ i < 36, i ∉ ([8, 13, 18, 23] : List Nat) → isHexDigit (s.toList.getD i ' ') = true)

/-! ## Handler registries (source lines 30–31, 37–39, 209–217)

Both `messageHandlersRef` and `connectionHandlersRef` are JavaScript `Set`s.
A JS `Set` is insertion-ordered with unique elements, so it is embedded as a
duplicate-free `List Nat` (handlers are identified by opaque numeric tags).
`add` on an element already present is a no-op; `delete` removes the element;
`forEach` iterates the *live* set in insertion order: an element removed
before the iterator reaches it is skipped, an element added during the pass
is appended and visited, and an element deleted and re-added moves to the
end and is visited again. -/

/-- `Set.add`, as used by `addMessageHandler` / `addConnectionHandler`. -/
def setAdd (h : Nat) (s : List Nat) : List Nat := if h ∈ s then s else s ++ [h]

/-- `Set.delete`, the unsubscribe closure returned by
`addMessageHandler` / `addConnectionHandler`. -/
def setDelete (h : Nat) (s : List Nat) : List Nat := s.filter (fun x => x ≠ h)

/-- A mutation a handler may perform on its own registry from inside its
callback during a notify pass. -/
inductive RegOp where
  | add (h : Nat)
  | remove (h : Nat)
  deriving DecidableEq

/-- Run a handler's registry operations during a `forEach` pass.  The set is
split as `(done, rest)`: elements the iterator has passed and elements still
ahead of it, `done ++ rest` being the set in insertion order.  `delete`
removes from either side; `add` of an absent element appends behind the
iterator (so it will still be visited), matching JS `Set` semantics. -/
def applyOps : List RegOp → List Nat × List Nat → List Nat × List Nat
  | [], p => p
  | RegOp.add h :: ops, (done, rest) =>
    applyOps ops (if h ∈ done ∨ h ∈ rest then (done, rest) else (done, rest ++ [h]))
  | RegOp.remove h :: ops, (done, rest) =>
    applyOps ops (done.filter (fun x => x ≠ h), rest.filter (fun x => x ≠ h))

/-- `Set.forEach` with handler callbacks that may mutate the registry:
visits the first element still ahead of the iterator, moves it behind the
iterator, runs its callback's registry operations, and continues.  `fuel`
bounds the pass (a handler that keeps adding fresh elements makes the real
`forEach` diverge too); with `fuel` larger than the number of elements ever
visited the result is exact.  Returns (visit order, final registry). -/
def notifyPass (behavior : Nat → List RegOp) : Nat → List Nat → List Nat → List Nat × List Nat
  | 0, done, rest => ([], done ++ rest)
  | _ + 1, done, [] => ([], done)
  | fuel + 1, done, h :: rest =>
    let p := applyOps (behavior h) (done ++ [h], rest)
    let r := notifyPass behavior fuel p.1 p.2
    (h :: r.1, r.2)

/-- A whole notify pass (`notifyConnectionHandlers` / the `onmessage` fan-out
loop) over a registry, starting with the iterator at the front. -/
def notifyAll (behavior : Nat → List RegOp) (fuel : Nat) (s : List Nat) :
    List Nat × List Nat :=
  notifyPass behavior fuel [] s

/-! ## Connection manager state -/

/-- `WebSocket.readyState` values. -/
inductive ReadyState where
  | CONNECTING
  | OPEN
  | CLOSING
  | CLOSED
  deriving DecidableEq

/-- One transport instance (`new WebSocket(uri)`); `sockId` distinguishes
successive instances. -/
structure Socket where
  readyState : ReadyState
  sockId : Nat
  deriving DecidableEq

/-- A parsed inbound frame (`JSON.parse(event.data)`): `request_id` is the
correlation field, `none` standing for an absent (or falsy) `request_id`;
the rest of the object is opaque to this layer. -/
structure Frame where
  request_id : Option String
  body : Nat
  deriving DecidableEq

/-- How one registered request's promise was settled. -/
inductive Settle where
  | resolved (f : Frame)
  | timeoutExpired
  | connectionClosed
  | disconnected
  | sendError
  deriving DecidableEq

/-- What a `setTimeout` callback does when it fires. -/
inductive TimerKind where
  | reqTimeout (id : String)
  | reconnect
  deriving DecidableEq

/-- The immediate outcome of one `sendRequest` call. -/
inductive SendOutcome where
  | notConnected
  | registered (id : String)
  | sendThrew (id : String)
  deriving DecidableEq

/-- The provider's mutable state, plus append-only ledgers of its observable
actions.  `pending` is `pendingRequestsRef` (a `Map`, so an insertion-ordered
association list with unique keys), each entry holding its timeout-timer
handle.  `activeTimers` holds every armed `setTimeout` handle with what its
callback will do; `nextTimer` / `nextSocket` allocate fresh handles.
`registered`, `settleLog`, `connNotifyLog`, `msgNotifyLog`, `sendCalls`,
`scheduledDelays`, `closedSockets` and `idsGenerated` are ledgers. -/
structure WSState where
  isConnected : Bool
  isConnecting : Bool
  ws : Option Socket
  pending : List (String × Nat)
  messageHandlers : List Nat
  connectionHandlers : List Nat
  serverConfig : String × String
  reconnectTimeout : Option Nat
  reconnectAttempts : Nat
  activeTimers : List (Nat × TimerKind)
  nextTimer : Nat
  nextSocket : Nat
  settleLog : List (String × Settle)
  connNotifyLog : List (Nat × Bool)
  msgNotifyLog : List (Nat × Frame)
  sendCalls : List SendOutcome
  scheduledDelays : List Nat
  closedSockets : List Nat
  registered : List String
  idsGenerated : Nat
  deriving DecidableEq

/-- `maxReconnectAttempts = 5` (source line 35). -/
def maxReconnectAttempts : Nat := 5

/-- Initial state of the provider (source lines 26–34). -/
def initState : WSState where
  isConnected := false
  isConnecting := false
  ws := none
  pending := []
  messageHandlers := []
  connectionHandlers := []
  serverConfig := ("192.168.0.56", "8081")
  reconnectTimeout := none
  reconnectAttempts := 0
  activeTimers := []
  nextTimer := 0
  nextSocket := 0
  settleLog := []
  connNotifyLog := []
  msgNotifyLog := []
  sendCalls := []
  scheduledDelays := []
  closedSockets := []
  registered := []
  idsGenerated := 0

/-- `wsRef.current?.readyState === WebSocket.OPEN`. -/
def readyOpen : Option Socket → Bool
  | some s => s.readyState = ReadyState.OPEN
  | none => false

/-- `Map.get` on `pendingRequestsRef` (first entry with the key; keys are
unique in a JS `Map`). -/
def mapLookup (k : String) : List (String × Nat) → Option Nat
  | [] => none
  | p :: ps => if p.1 = k then some p.2 else mapLookup k ps

/-- Look up what an armed timer handle will do. -/
def timerLookup (t : Nat) : List (Nat × TimerKind) → Option TimerKind
  | [] => none
  | p :: ps => if p.1 = t then some p.2 else timerLookup t ps

/-- `clearTimeout(t)`: disarm the handle. -/
def clearTimer (t : Nat) (ts : List (Nat × TimerKind)) : List (Nat × TimerKind) :=
  ts.filter (fun tk => tk.1 ≠ t)

/-- `pendingRequestsRef.current.forEach((pending) => clearTimeout(pending.timeout))`. -/
def clearTimers (ps : List (String × Nat)) (ts : List (Nat × TimerKind)) :
    List (Nat × TimerKind) :=
  ps.foldl (fun acc p => clearTimer p.2 acc) ts

/-- `notifyConnectionHandlers` (source lines 37–39): fan the flag out to every
registered connection handler, recorded in the ledger. -/
def notifyConnectionHandlers (connected : Bool) (st : WSState) : WSState :=
  { st with connNotifyLog :=
      st.connNotifyLog ++ st.connectionHandlers.map (fun h => (h, connected)) }

/-! ## Connection manager operations -/

/-- `connect` (source lines 49–148).

IMPORTANT modelling note: `connect` is created by `useCallback(..., [])`, so
the function object is the one from the component's first render and the
`isConnecting` it reads in its second guard is the *first render's* state
value, which is `false` — a stale closure.  The captured value is made an
explicit parameter `capturedIsConnecting`; every call site in the running
program passes `false`.  The first guard reads `wsRef` (a ref, never stale).
The `try`/`catch` around `new WebSocket(uri)` is not modelled as throwing:
constructing a `WebSocket` object succeeds for well-formed URIs. -/
def connect (capturedIsConnecting : Bool) (ip port : String) (st : WSState) : WSState :=
  if readyOpen st.ws then st
  else if capturedIsConnecting then st
  else
    let st1 :=
      match st.reconnectTimeout with
      | some t => { st with activeTimers := clearTimer t st.activeTimers,
                            reconnectTimeout := none }
      | none => st
    let st2 := { st1 with serverConfig := (ip, port), isConnecting := true }
    let st3 :=
      match st2.ws with
      | some s => { st2 with closedSockets := st2.closedSockets ++ [s.sockId], ws := none }
      | none => st2
    { st3 with ws := some ⟨ReadyState.CONNECTING, st3.nextSocket⟩,
               nextSocket := st3.nextSocket + 1 }

/-- `ws.onopen` (source lines 86–92); the environment has just moved the
socket's `readyState` from `CONNECTING` to `OPEN`. -/
def onopen (st : WSState) : WSState :=
  match st.ws with
  | some s =>
    if s.readyState = ReadyState.CONNECTING then
      notifyConnectionHandlers true
        { st with ws := some ⟨ReadyState.OPEN, s.sockId⟩,
                  isConnected := true, isConnecting := false, reconnectAttempts := 0 }
    else st
  | none => st

/-- `ws.onmessage` (source lines 94–112).  `msg = none` is a frame
`JSON.parse` rejected: the exception is caught and logged, nothing changes.
For a parsed frame: if it carries a `request_id` matching a pending entry,
that entry's timer is cleared, the entry is removed and its promise resolved
with the frame; then — matched or not — the frame is fanned out to every
registered message handler. -/
def onmessage (msg : Option Frame) (st : WSState) : WSState :=
  match msg with
  | none => st
  | some data =>
    let st1 :=
      match data.request_id with
      | some rid =>
        match mapLookup rid st.pending with
        | some t =>
          { st with activeTimers := clearTimer t st.activeTimers,
                    pending := st.pending.filter (fun p => p.1 ≠ rid),
                    settleLog := st.settleLog ++ [(rid, Settle.resolved data)] }
        | none => st
      | none => st
    { st1 with msgNotifyLog :=
        st1.msgNotifyLog ++ st1.messageHandlers.map (fun h => (h, data)) }

/-- `ws.onclose` (source lines 118–141): clear the connected flags and the
socket ref, notify connection handlers with `false`, reject every pending
request with `Error('Connection closed')` after clearing its timer, empty
the table, and — if the retry budget is not exhausted — schedule a reconnect
after `min(1000 * 2 ** attempts, 10000)` ms. -/
def onclose (st : WSState) : WSState :=
  match st.ws with
  | none => st
  | some _ =>
    let st1 := notifyConnectionHandlers false
      { st with isConnected := false, isConnecting := false, ws := none }
    let st2 :=
      { st1 with activeTimers := clearTimers st1.pending st1.activeTimers,
                 settleLog := st1.settleLog ++
                   st1.pending.map (fun p => (p.1, Settle.connectionClosed)),
                 pending := [] }
    if st2.reconnectAttempts < maxReconnectAttempts then
      { st2 with reconnectTimeout := some st2.nextTimer,
                 activeTimers := st2.activeTimers ++ [(st2.nextTimer, TimerKind.reconnect)],
                 nextTimer := st2.nextTimer + 1,
                 scheduledDelays := st2.scheduledDelays ++
                   [min (1000 * 2 ^ st2.reconnectAttempts) 10000] }
    else st2

/-- `disconnect` (source lines 150–173): exhaust the retry budget, cancel any
scheduled reconnect, detach and close the socket if present, clear the
connected flags, and reject every pending request with `Error('Disconnected')`
after clearing its timer. -/
def disconnect (st : WSState) : WSState :=
  let st1 := { st with reconnectAttempts := maxReconnectAttempts }
  let st2 :=
    match st1.reconnectTimeout with
    | some t => { st1 with activeTimers := clearTimer t st1.activeTimers,
                           reconnectTimeout := none }
    | none => st1
  let st3 :=
    match st2.ws with
    | some s => { st2 with closedSockets := st2.closedSockets ++ [s.sockId], ws := none }
    | none => st2
  let st4 := { st3 with isConnected := false, isConnecting := false }
  { st4 with activeTimers := clearTimers st4.pending st4.activeTimers,
             settleLog := st4.settleLog ++
               st4.pending.map (fun p => (p.1, Settle.disconnected)),
             pending := [] }

/-- `sendRequest` (source lines 175–207).  `freshId` is the value returned by
`generateRequestId()` for this call (identifier generation is randomized, so
the value is an event parameter); `sendThrows` says whether
`wsRef.current.send(...)` throws for this frame.  If the socket is absent or
not `OPEN`, the promise is rejected immediately with
`Error('WebSocket not connected')` before any identifier is generated and
before anything is registered.  Otherwise a 30000 ms timeout timer is armed,
the entry is registered, and the frame is sent; if `send` throws, the timer
is cleared, the entry removed, and the promise rejected with the error. -/
def sendRequest (freshId : String) (sendThrows : Bool) (st : WSState) : WSState :=
  if !readyOpen st.ws then
    { st with sendCalls := st.sendCalls ++ [SendOutcome.notConnected] }
  else
    let requestId := freshId
    let timer := st.nextTimer
    let st1 := { st with idsGenerated := st.idsGenerated + 1,
                         nextTimer := st.nextTimer + 1,
                         activeTimers := st.activeTimers ++
                           [(timer, TimerKind.reqTimeout requestId)],
                         pending := st.pending ++ [(requestId, timer)],
                         registered := st.registered ++ [requestId] }
    if sendThrows then
      { st1 with activeTimers := clearTimer timer st1.activeTimers,
                 pending := st1.pending.filter (fun p => p.1 ≠ requestId),
                 settleLog := st1.settleLog ++ [(requestId, Settle.sendError)],
                 sendCalls := st1.sendCalls ++ [SendOutcome.sendThrew requestId] }
    else
      { st1 with sendCalls := st1.sendCalls ++ [SendOutcome.registered requestId] }

/-- The body of the `setTimeout` callback armed by `sendRequest` (source
lines 189–194): if the entry is still pending, remove it and reject with
`Error('Request timeout')`; otherwise do nothing. -/
def requestTimeoutFire (rid : String) (st : WSState) : WSState :=
  if (mapLookup rid st.pending).isSome then
    { st with pending := st.pending.filter (fun p => p.1 ≠ rid),
              settleLog := st.settleLog ++ [(rid, Settle.timeoutExpired)] }
  else st

/-- A timer handle fires.  Only an armed handle can fire (`clearTimeout`
prevents later delivery in the single-threaded JS runtime); firing disarms
it.  A reconnect timer increments the attempt counter and calls `connect`
with the stored server config (source lines 136–139) — passing `false` for
the stale captured `isConnecting`, as every call of the program does. -/
def fireTimer (t : Nat) (st : WSState) : WSState :=
  match timerLookup t st.activeTimers with
  | none => st
  | some k =>
    let st1 := { st with activeTimers := clearTimer t st.activeTimers }
    match k with
    | TimerKind.reqTimeout rid => requestTimeoutFire rid st1
    | TimerKind.reconnect =>
      connect false st1.serverConfig.1 st1.serverConfig.2
        { st1 with reconnectAttempts := st1.reconnectAttempts + 1 }

/-! ## Event system

One event = one entry of JavaScript's single-threaded event loop touching
this component.  `userSend` carries the freshly generated identifier; per the
design document the identifier space is collision-free for the process
lifetime ("effectively unique for the process lifetime"), so a `userSend`
whose identifier was already generated once is outside the modelled traces
(the step skips it). -/

inductive Event where
  | userConnect (ip port : String)
  | transportOpen
  | transportMessage (msg : Option Frame)
  | transportClose
  | userDisconnect
  | userSend (freshId : String) (sendThrows : Bool)
  | timerFires (t : Nat)
  | addMessageHandlerEv (h : Nat)
  | removeMessageHandlerEv (h : Nat)
  | addConnectionHandlerEv (h : Nat)
  | removeConnectionHandlerEv (h : Nat)
  deriving DecidableEq

/-- One step of the event loop.  Transport events can only be delivered while
a socket is attached (its handlers are detached exactly when `wsRef` is
nulled); a timer can only fire while armed. -/
def step (st : WSState) (e : Event) : WSState :=
  match e with
  | Event.userConnect ip port => connect false ip port st
  | Event.transportOpen => onopen st
  | Event.transportMessage msg =>
    match st.ws with
    | some _ => onmessage msg st
    | none => st
  | Event.transportClose => onclose st
  | Event.userDisconnect => disconnect st
  | Event.userSend freshId sendThrows =>
    if freshId ∈ st.registered then st else sendRequest freshId sendThrows st
  | Event.timerFires t => fireTimer t st
  | Event.addMessageHandlerEv h => { st with messageHandlers := setAdd h st.messageHandlers }
  | Event.removeMessageHandlerEv h =>
    { st with messageHandlers := setDelete h st.messageHandlers }
  | Event.addConnectionHandlerEv h =>
    { st with connectionHandlers := setAdd h st.connectionHandlers }
  | Event.removeConnectionHandlerEv h =>
    { st with connectionHandlers := setDelete h st.connectionHandlers }

/-- Run a whole event trace from the initial state. -/
def run (evs : List Event) : WSState := evs.foldl step initState

/-! ## Derived notions used by the claims -/

/-- The identifiers currently in the Pending Request Table. -/
def pendingIds (st : WSState) : List String := st.pending.map Prod.fst

/-- How many times the promise of request `id` has been settled. -/
def settleCount (st : WSState) (id : String) : Nat :=
  (st.settleLog.filter (fun p => p.1 = id)).length

/-- A settlement is well-formed: a resolution carries a frame whose
`request_id` is exactly the settled request's identifier. -/
def settleKindOk : String × Settle → Prop
  | (id, Settle.resolved f) => f.request_id = some id
  | _ => True

/-- Is this armed timer a per-request timeout timer? -/
def isReqTimer : TimerKind → Bool
  | TimerKind.reqTimeout _ => true
  | TimerKind.reconnect => false

/-- A state with no armed per-request timeout timer: every request's 30 s
window has been allowed to elapse (or was cancelled at settlement), i.e. the
trace is complete as far as request settlement is concerned. -/
def noReqTimers (st : WSState) : Prop :=
  ∀ tk ∈ st.activeTimers, isReqTimer tk.2 = false

/-- The settle kinds the claim C1 admits for a registered request: resolved,
request timeout, or connection closed. -/
def claimC1SettleKind : Settle → Bool
  | Settle.resolved _ => true
  | Settle.timeoutExpired => true
  | Settle.connectionClosed => true
  | _ => false

/-- A state in which the manager is idle and disconnected: no socket, not
connected, no armed timer, empty Pending Request Table. -/
def Quiescent (st : WSState) : Prop :=
  st.ws = none ∧ st.isConnected = false ∧ st.activeTimers = [] ∧ st.pending = []

/-- A `Connecting`-phase state used as the concrete failing input of claim
C4: a transport is in flight (socket 0 in `CONNECTING` state) and the
component has re-rendered with `isConnecting = true`. -/
def c4State : WSState :=
  { initState with ws := some ⟨ReadyState.CONNECTING, 0⟩,
                   isConnecting := true, nextSocket := 1 }

/-- A concrete all-zero random source, standing for a run of
`Math.random() * 16 | 0` outcomes. -/
def zeroSrc : Nat → Nat := fun _ => 0

/-- Concrete trace: connect, open, send request `q1`, receive its matching
response. -/
def c1Trace : List Event :=
  [Event.userConnect "h" "1", Event.transportOpen, Event.userSend "q1" false,
    Event.transportMessage (some (Frame.mk (some "q1") 7))]

/-- Concrete trace: connect, open, then a `sendRequest` whose transport
`send` throws. -/
def c1FailTrace : List Event :=
  [Event.userConnect "h" "1", Event.transportOpen, Event.userSend "r1" true]

/-- The reachability invariant of the provider state tying the Pending
Request Table, the settlement ledger and the armed timers together. -/
structure Inv (st : WSState) : Prop where
  regNodup : st.registered.Nodup
  pendNodup : (pendingIds st).Nodup
  pendSub : ∀ id ∈ pendingIds st, id ∈ st.registered
  settleSub : ∀ p ∈ st.settleLog, p.1 ∈ st.registered
  once : ∀ id ∈ st.registered,
    settleCount st id ≤ 1 ∧ (settleCount st id = 0 ↔ id ∈ pendingIds st)
  kinds : ∀ p ∈ st.settleLog, settleKindOk p
  timerPend : ∀ t rid,
    (t, TimerKind.reqTimeout rid) ∈ st.activeTimers ↔ (rid, t) ∈ st.pending
  keysNodup : (st.activeTimers.map Prod.fst).Nodup
  timerFresh : ∀ tk ∈ st.activeTimers, tk.1 < st.nextTimer
  rtFresh : ∀ t, st.reconnectTimeout = some t → t < st.nextTimer
  rtKind : ∀ t, st.reconnectTimeout = some t →
    ∀ rid, (t, TimerKind.reqTimeout rid) ∉ st.activeTimers

/-! ## Helper lemmas about the identifier generator -/

theorem replaceXY_length (src : Nat → Nat) :
    ∀ (cs : List Char) (k : Nat), (replaceXY src cs k).length = cs.length := by
  intro cs
  induction cs with
  | nil => intro k; rfl
  | cons c cs ih =>
    intro k
    simp only [replaceXY]
    split_ifs <;> simp [ih]

theorem replaceXY_getD_lit (src : Nat → Nat) :
    ∀ (cs : List Char) (k i : Nat), cs.getD i ' ' ≠ 'x' → cs.getD i ' ' ≠ 'y' →
      (replaceXY src cs k).getD i ' ' = cs.getD i ' ' := by
  intro cs
  induction cs with
  | nil => intro k i _ _; rfl
  | cons c cs ih =>
    intro k i hx hy
    cases i with
    | zero =>
      simp only [List.getD_cons_zero] at hx hy ⊢
      simp only [replaceXY, if_neg hx, if_neg hy, List.getD_cons_zero]
    | succ i =>
      simp only [List.getD_cons_succ] at hx hy ⊢
      simp only [replaceXY]
      split_ifs <;> (rw [List.getD_cons_succ]; exact ih _ _ hx hy)

theorem hexChar_hex : ∀ n < 16, isHexDigit (hexChar n) = true := by decide

theorem hexChar_variant :
    ∀ n < 16, hexChar (n &&& 3 ||| 8) ∈ (['8', '9', 'a', 'b'] : List Char) := by decide

theorem replaceXY_getD_x (src : Nat → Nat) (hsrc : ∀ j, src j < 16) :
    ∀ (cs : List Char) (k i : Nat), cs.getD i ' ' = 'x' →
      isHexDigit ((replaceXY src cs k).getD i ' ') = true := by
  intro cs
  induction cs with
  | nil => intro k i h; simp [List.getD] at h
  | cons c cs ih =>
    intro k i h
    cases i with
    | zero =>
      simp only [List.getD_cons_zero] at h
      subst h
      simp only [replaceXY, if_pos rfl, List.getD_cons_zero]
      exact hexChar_hex _ (hsrc k)
    | succ i =>
      simp only [List.getD_cons_succ] at h
      simp only [replaceXY]
      split_ifs <;> (rw [List.getD_cons_succ]; exact ih _ _ h)

theorem replaceXY_getD_y (src : Nat → Nat) (hsrc : ∀ j, src j < 16) :
    ∀ (cs : List Char) (k i : Nat), cs.getD i ' ' = 'y' →
      (replaceXY src cs k).getD i ' ' ∈ (['8', '9', 'a', 'b'] : List Char) := by
  intro cs
  induction cs with
  | nil => intro k i h; simp [List.getD] at h
  | cons c cs ih =>
    intro k i h
    cases i with
    | zero =>
      simp only [List.getD_cons_zero] at h
      subst h
      have hstep : replaceXY src ('y' :: cs) k =
          hexChar (src k &&& 3 ||| 8) :: replaceXY src cs (k + 1) := by
        simp [replaceXY]
      rw [hstep, List.getD_cons_zero]
      exact hexChar_variant _ (hsrc k)
    | succ i =>
      simp only [List.getD_cons_succ] at h
      simp only [replaceXY]
      split_ifs <;> (rw [List.getD_cons_succ]; exact ih _ _ h)

theorem mem89ab_hex : ∀ c ∈ (['8', '9', 'a', 'b'] : List Char), isHexDigit c = true := by
  decide

/-- C9: for every invocation and every outcome of the random source (the
values of `Math.random() * 16 | 0`, always in `[0, 16)`), `generateRequestId`
returns a UUID-v4-shaped token: 32 hex digits grouped 8-4-4-4-12, version
nibble fixed to `4`, variant nibble in `{8, 9, a, b}`. -/
theorem c9_uuid_shape (src : Nat → Nat) (hsrc : ∀ j, src j < 16) :
    uuidV4Shaped (generateRequestId src) := by
  have hlist : (generateRequestId src).toList = replaceXY src uuidTemplate.toList 0 := rfl
  have hclass : ∀ i < 36,
      uuidTemplate.toList.getD i ' ' = 'x' ∨ uuidTemplate.toList.getD i ' ' = '4' ∨
      uuidTemplate.toList.getD i ' ' = '-' ∨ uuidTemplate.toList.getD i ' ' = 'y' := by
    decide
  have hdash : ∀ i < 36, uuidTemplate.toList.getD i ' ' = '-' →
      i ∈ ([8, 13, 18, 23] : List Nat) := by decide
  refine ⟨?_, ?_, ?_, ?_, ?_⟩
  · rw [hlist, replaceXY_length]; decide
  · intro i hi
    rw [hlist]
    have h4 : uuidTemplate.toList.getD i ' ' = '-' := by
      simp only [List.mem_cons, List.not_mem_nil, or_false] at hi
      rcases hi with rfl | rfl | rfl | rfl <;> decide
    rw [replaceXY_getD_lit src _ _ _ (by rw [h4]; decide) (by rw [h4]; decide), h4]
  · rw [hlist,
      replaceXY_getD_lit src _ _ _ (by decide) (by decide)]
    decide
  · rw [hlist]
    exact replaceXY_getD_y src hsrc _ 0 19 (by decide)
  · intro i hi hnot
    rw [hlist]
    rcases hclass i hi with hx | h4 | hd | hy
    · exact replaceXY_getD_x src hsrc _ 0 i hx
    · rw [replaceXY_getD_lit src _ _ _ (by rw [h4]; decide) (by rw [h4]; decide), h4]
      decide
    · exact absurd (hdash i hi hd) hnot
    · exact mem89ab_hex _ (replaceXY_getD_y src hsrc _ 0 i hy)

theorem c9_witness :
    (∀ j, zeroSrc j < 16) ∧ uuidV4Shaped (generateRequestId zeroSrc) :=
  ⟨fun _ => by norm_num [zeroSrc], c9_uuid_shape zeroSrc (fun _ => by norm_num [zeroSrc])⟩

/-! ## Claim C8: the handler registries -/

/-- C8 counterexample.  The registries are JS `Set`s, so (a) registering the
same handler twice yields a single subscription, and one unsubscribe removes
the handler entirely — the second `add` was not an independent subscription;
(b) `forEach` iterates the live set, not a snapshot: with registry `[1, 2]`,
handler 1 unsubscribing handler 2 from inside its callback prevents 2 —
registered when the pass began — from being notified. -/
theorem c8_counterexample :
    setDelete 5 (setAdd 5 (setAdd 5 [])) = [] ∧
    (notifyAll (fun h => if h = 1 then [RegOp.remove 2] else []) 3 [1, 2]).1 = [1] := by
  constructor <;> decide

theorem setAdd_idem (h : Nat) (s : List Nat) : setAdd h (setAdd h s) = setAdd h s := by
  by_cases hm : h ∈ s <;> simp [setAdd, hm]

theorem notify_self_unsub : ∀ (s : List Nat), s.Nodup →
    notifyPass (fun h => [RegOp.remove h]) (s.length + 1) [] s = (s, []) := by
  intro s
  induction s with
  | nil => intro _; rfl
  | cons h t ih =>
    intro hnd
    rcases List.nodup_cons.mp hnd with ⟨hht, hnt⟩
    have hfil : List.filter (fun x => !decide (x = h)) t = t := by
      rw [List.filter_eq_self]
      intro a ha
      simp only [Bool.not_eq_true', decide_eq_false_iff_not]
      exact fun hc => hht (hc ▸ ha)
    simp only [List.length_cons, notifyPass, applyOps, List.nil_append,
      List.filter_cons, List.filter_nil]
    simp [hfil, ih hnt]

/-- C8 amended: the two registries are JS `Set`s, so (a) duplicate
registration is idempotent — a second `add` of the same handler yields no
independent subscription; (b) a handler unsubscribing itself from within its
own callback does not invalidate the notify pass: every handler of the
registry is still visited, in order, and the registry is empty afterwards;
(c) a notify pass iterates the live set rather than a stable snapshot — a
handler removed during the pass before being visited is skipped. -/
theorem c8_registry_amended :
    (∀ (h : Nat) (s : List Nat), setAdd h (setAdd h s) = setAdd h s) ∧
    (∀ (s : List Nat), s.Nodup →
      notifyAll (fun h => [RegOp.remove h]) (s.length + 1) s = (s, [])) ∧
    (notifyAll (fun h => if h = 1 then [RegOp.remove 2] else []) 3 [1, 2]) = ([1], [1]) := by
  refine ⟨setAdd_idem, ?_, by decide⟩
  intro s hnd
  exact notify_self_unsub s hnd

theorem c8_witness :
    ([3, 4, 7] : List Nat).Nodup ∧
    notifyAll (fun h => [RegOp.remove h]) 4 [3, 4, 7] = ([3, 4, 7], []) :=
  ⟨by decide, c8_registry_amended.2.1 [3, 4, 7] (by decide)⟩

/-! ## Helper lemmas about timers and table lookups -/

theorem mem_clearTimer {tk : Nat × TimerKind} {t : Nat} {ts : List (Nat × TimerKind)} :
    tk ∈ clearTimer t ts ↔ tk ∈ ts ∧ tk.1 ≠ t := by
  simp [clearTimer]

theorem clearTimer_sublist (t : Nat) (ts : List (Nat × TimerKind)) :
    (clearTimer t ts).Sublist ts :=
  List.filter_sublist ts

theorem clearTimers_cons (p : String × Nat) (ps : List (String × Nat))
    (ts : List (Nat × TimerKind)) :
    clearTimers (p :: ps) ts = clearTimers ps (clearTimer p.2 ts) := rfl

theorem mem_clearTimers {tk : Nat × TimerKind} :
    ∀ (ps : List (String × Nat)) (ts : List (Nat × TimerKind)),
      tk ∈ clearTimers ps ts ↔ tk ∈ ts ∧ ∀ p ∈ ps, tk.1 ≠ p.2 := by
  intro ps
  induction ps with
  | nil => intro ts; simp [clearTimers]
  | cons p ps ih =>
    intro ts
    rw [clearTimers_cons, ih, mem_clearTimer]
    constructor
    · rintro ⟨⟨h1, h2⟩, h3⟩
      refine ⟨h1, fun q hq => ?_⟩
      rcases List.mem_cons.mp hq with rfl | hq'
      · exact h2
      · exact h3 q hq'
    · rintro ⟨h1, h2⟩
      exact ⟨⟨h1, h2 p (List.mem_cons_self _ _)⟩,
        fun q hq => h2 q (List.mem_cons_of_mem _ hq)⟩

theorem clearTimers_sublist :
    ∀ (ps : List (String × Nat)) (ts : List (Nat × TimerKind)),
      (clearTimers ps ts).Sublist ts := by
  intro ps
  induction ps with
  | nil => intro ts; exact List.Sublist.refl ts
  | cons p ps ih =>
    intro ts
    exact (ih (clearTimer p.2 ts)).trans (clearTimer_sublist p.2 ts)

theorem keys_nodup_inj {α β : Type} :
    ∀ {l : List (α × β)}, (l.map Prod.fst).Nodup →
      ∀ {k : α} {a b : β}, (k, a) ∈ l → (k, b) ∈ l → a = b := by
  intro l
  induction l with
  | nil => intro _ k a b ha _; simp at ha
  | cons p l ih =>
    intro hnd k a b ha hb
    rw [List.map_cons, List.nodup_cons] at hnd
    obtain ⟨hp, hl⟩ := hnd
    rcases List.mem_cons.mp ha with rfl | ha'
    · rcases List.mem_cons.mp hb with hb' | hb'
      · exact ((Prod.ext_iff.mp hb').2).symm
      · exact absurd (List.mem_map_of_mem Prod.fst hb') hp
    · rcases List.mem_cons.mp hb with rfl | hb'
      · exact absurd (List.mem_map_of_mem Prod.fst ha') hp
      · exact ih hl ha' hb'

theorem mapLookup_mem {rid : String} {t : Nat} :
    ∀ {ps : List (String × Nat)}, mapLookup rid ps = some t → (rid, t) ∈ ps := by
  intro ps
  induction ps with
  | nil => intro h; simp [mapLookup] at h
  | cons p ps ih =>
    intro h
    simp only [mapLookup] at h
    split_ifs at h with hp
    · injection h with h
      subst h
      rw [← hp]
      exact List.mem_cons_self _ _
    · exact List.mem_cons_of_mem _ (ih h)

theorem mapLookup_eq_none {rid : String} :
    ∀ {ps : List (String × Nat)}, mapLookup rid ps = none ↔ rid ∉ ps.map Prod.fst := by
  intro ps
  induction ps with
  | nil => simp [mapLookup]
  | cons p ps ih =>
    simp only [mapLookup, List.map_cons, List.mem_cons]
    split_ifs with hp
    · simp [hp]
    · simp [ih, Ne.symm hp, hp]

theorem mapLookup_of_mem {rid : String} {t : Nat} :
    ∀ {ps : List (String × Nat)}, (ps.map Prod.fst).Nodup → (rid, t) ∈ ps →
      mapLookup rid ps = some t := by
  intro ps
  induction ps with
  | nil => intro _ h; simp at h
  | cons p ps ih =>
    intro hnd hm
    rw [List.map_cons, List.nodup_cons] at hnd
    obtain ⟨hp, hl⟩ := hnd
    simp only [mapLookup]
    rcases List.mem_cons.mp hm with rfl | hm'
    · simp
    · split_ifs with he
      · exact absurd (he ▸ List.mem_map_of_mem Prod.fst hm') hp
      · exact ih hl hm'

theorem timerLookup_mem {t : Nat} {k : TimerKind} :
    ∀ {ts : List (Nat × TimerKind)}, timerLookup t ts = some k → (t, k) ∈ ts := by
  intro ts
  induction ts with
  | nil => intro h; simp [timerLookup] at h
  | cons p ps ih =>
    intro h
    simp only [timerLookup] at h
    split_ifs at h with hp
    · cases h
      rw [← hp]
      exact List.mem_cons_self _ _
    · exact List.mem_cons_of_mem _ (ih h)

theorem filter_key_length_zero {β : Type} {id : String} :
    ∀ {ps : List (String × β)}, id ∉ ps.map Prod.fst →
      (ps.filter (fun p => p.1 = id)).length = 0 := by
  intro ps
  induction ps with
  | nil => intro _; rfl
  | cons p ps ih =>
    intro h
    rw [List.map_cons, List.mem_cons, not_or] at h
    obtain ⟨h1, h2⟩ := h
    rw [List.filter_cons]
    simp only [decide_eq_true_eq]
    rw [if_neg (fun hc => h1 hc.symm)]
    exact ih h2

theorem filter_key_length_one {β : Type} {id : String} :
    ∀ {ps : List (String × β)}, (ps.map Prod.fst).Nodup → id ∈ ps.map Prod.fst →
      (ps.filter (fun p => p.1 = id)).length = 1 := by
  intro ps
  induction ps with
  | nil => intro _ h; simp at h
  | cons p ps ih =>
    intro hnd hm
    rw [List.map_cons, List.nodup_cons] at hnd
    obtain ⟨hp, hl⟩ := hnd
    rw [List.map_cons, List.mem_cons] at hm
    rw [List.filter_cons]
    simp only [decide_eq_true_eq]
    rcases hm with heq | hm'
    · have h0 : (ps.filter (fun p => p.1 = id)).length = 0 :=
        filter_key_length_zero (by rw [heq]; exact hp)
      rw [if_pos heq.symm, List.length_cons, h0]
    · have hne : p.1 ≠ id := fun hc => hp (hc ▸ hm')
      rw [if_neg hne]
      exact ih hl hm'

/-! ## Claim C5: sendRequest while not connected -/

/-- C5: every `sendRequest` call made while the transport is absent or not in
the `OPEN` state rejects immediately with `NotConnected`
(`Error('WebSocket not connected')`); no identifier is generated and no entry
is added to the Pending Request Table — indeed nothing changes except the
recorded rejection. -/
theorem c5_send_not_connected (st : WSState) (freshId : String) (th : Bool)
    (hns : readyOpen st.ws = false) :
    sendRequest freshId th st =
      { st with sendCalls := st.sendCalls ++ [SendOutcome.notConnected] } := by
  simp [sendRequest, hns]

theorem c5_witness :
    readyOpen initState.ws = false ∧
    sendRequest "r0" false initState =
      { initState with sendCalls := [SendOutcome.notConnected] } := by
  refine ⟨rfl, ?_⟩
  have h := c5_send_not_connected initState "r0" false rfl
  simpa using h

/-! ## Claim C3: transport close rejects all pending requests -/

/-- C3: whenever the transport closes (for any reason — `onclose` fires on
the attached socket), every entry of the Pending Request Table is rejected
with `ConnectionClosed` (`Error('Connection closed')`), the table is empty
afterwards, and every registered connection observer is notified with
`false`. -/
theorem c3_close_rejects_pending (st : WSState) (s : Socket) (hws : st.ws = some s) :
    (onclose st).pending = [] ∧
    (onclose st).settleLog =
      st.settleLog ++ st.pending.map (fun p => (p.1, Settle.connectionClosed)) ∧
    (onclose st).connNotifyLog =
      st.connNotifyLog ++ st.connectionHandlers.map (fun h => (h, false)) := by
  simp only [onclose, hws, notifyConnectionHandlers]
  split_ifs <;> exact ⟨rfl, rfl, rfl⟩

theorem c3_witness :
    ({ initState with
        ws := some ⟨ReadyState.OPEN, 0⟩, isConnected := true,
        pending := [("a", 0), ("b", 1), ("c", 2)],
        activeTimers := [(0, TimerKind.reqTimeout "a"), (1, TimerKind.reqTimeout "b"),
          (2, TimerKind.reqTimeout "c")],
        nextTimer := 3, nextSocket := 1, connectionHandlers := [11],
        registered := ["a", "b", "c"] } : WSState).ws = some ⟨ReadyState.OPEN, 0⟩ ∧
    (onclose { initState with
        ws := some ⟨ReadyState.OPEN, 0⟩, isConnected := true,
        pending := [("a", 0), ("b", 1), ("c", 2)],
        activeTimers := [(0, TimerKind.reqTimeout "a"), (1, TimerKind.reqTimeout "b"),
          (2, TimerKind.reqTimeout "c")],
        nextTimer := 3, nextSocket := 1, connectionHandlers := [11],
        registered := ["a", "b", "c"] }).pending = [] ∧
    (onclose { initState with
        ws := some ⟨ReadyState.OPEN, 0⟩, isConnected := true,
        pending := [("a", 0), ("b", 1), ("c", 2)],
        activeTimers := [(0, TimerKind.reqTimeout "a"), (1, TimerKind.reqTimeout "b"),
          (2, TimerKind.reqTimeout "c")],
        nextTimer := 3, nextSocket := 1, connectionHandlers := [11],
        registered := ["a", "b", "c"] }).settleLog =
      [("a", Settle.connectionClosed), ("b", Settle.connectionClosed),
        ("c", Settle.connectionClosed)] := by
  refine ⟨rfl, ?_, ?_⟩
  · exact (c3_close_rejects_pending _ _ rfl).1
  · have h := (c3_close_rejects_pending
      { initState with
        ws := some ⟨ReadyState.OPEN, 0⟩, isConnected := true,
        pending := [("a", 0), ("b", 1), ("c", 2)],
        activeTimers := [(0, TimerKind.reqTimeout "a"), (1, TimerKind.reqTimeout "b"),
          (2, TimerKind.reqTimeout "c")],
        nextTimer := 3, nextSocket := 1, connectionHandlers := [11],
        registered := ["a", "b", "c"] } ⟨ReadyState.OPEN, 0⟩ rfl).2.1
    simpa using h

/-! ## Claim C6: message fan-out and unmatched frames -/

/-- C6: every successfully parsed inbound frame — whether or not its
`request_id` matches a pending entry — is fanned out to all registered
message observers; and a frame whose `request_id` matches no pending entry
changes nothing besides that fan-out (in particular the Pending Request
Table is untouched, and the embedding of `onmessage` is a total function:
processing cannot throw). -/
theorem c6_message_fanout (st : WSState) (f : Frame) :
    (onmessage (some f) st).msgNotifyLog =
      st.msgNotifyLog ++ st.messageHandlers.map (fun h => (h, f)) ∧
    ((∀ rid, f.request_id = some rid → mapLookup rid st.pending = none) →
      onmessage (some f) st =
        { st with msgNotifyLog :=
            st.msgNotifyLog ++ st.messageHandlers.map (fun h => (h, f)) }) := by
  constructor
  · simp only [onmessage]
    split
    · split
      · rfl
      · rfl
    · rfl
  · intro hun
    simp only [onmessage]
    split
    next rid heq =>
      rw [hun rid heq]
    next => rfl

theorem c6_witness :
    (∀ rid, (Frame.mk (some "zz") 5).request_id = some rid →
      mapLookup rid ({ initState with
        ws := some ⟨ReadyState.OPEN, 0⟩,
        messageHandlers := [4, 9], pending := [("a", 0)] } : WSState).pending = none) ∧
    onmessage (some (Frame.mk (some "zz") 5))
        { initState with
          ws := some ⟨ReadyState.OPEN, 0⟩,
          messageHandlers := [4, 9], pending := [("a", 0)] } =
      { initState with
        ws := some ⟨ReadyState.OPEN, 0⟩,
        messageHandlers := [4, 9], pending := [("a", 0)],
        msgNotifyLog := [(4, Frame.mk (some "zz") 5), (9, Frame.mk (some "zz") 5)] } := by
  refine ⟨by intro rid h; injection h with h; subst h; rfl, ?_⟩
  have h := (c6_message_fanout
    { initState with
      ws := some ⟨ReadyState.OPEN, 0⟩,
      messageHandlers := [4, 9], pending := [("a", 0)] } (Frame.mk (some "zz") 5)).2
    (by intro rid h; injection h with h; subst h; rfl)
  simpa using h

/-! ## Claim C7: disconnect -/

/-- C7: from any state, `disconnect` cancels any scheduled reconnect timer
(the stored handle is disarmed and the ref cleared), closes the transport if
one is attached, rejects every entry of the Pending Request Table (with
`Error('Disconnected')`), leaves the table empty, and exhausts the retry
budget so that no later `onclose` schedules an auto-reconnect. -/
theorem c7_disconnect_cleanup (st : WSState) :
    (disconnect st).reconnectAttempts = maxReconnectAttempts ∧
    (disconnect st).reconnectTimeout = none ∧
    (∀ t, st.reconnectTimeout = some t → ∀ k, (t, k) ∉ (disconnect st).activeTimers) ∧
    (∀ s, st.ws = some s → (disconnect st).closedSockets = st.closedSockets ++ [s.sockId]) ∧
    (disconnect st).ws = none ∧
    (disconnect st).pending = [] ∧
    (disconnect st).settleLog =
      st.settleLog ++ st.pending.map (fun p => (p.1, Settle.disconnected)) := by
  refine ⟨?_, ?_, ?_, ?_, ?_, ?_, ?_⟩
  · cases hrt : st.reconnectTimeout <;> cases hws : st.ws <;> simp [disconnect, hrt, hws]
  · cases hrt : st.reconnectTimeout <;> cases hws : st.ws <;> simp [disconnect, hrt, hws]
  · intro t ht k hmem
    have hat : (disconnect st).activeTimers =
        clearTimers st.pending (clearTimer t st.activeTimers) := by
      cases hws : st.ws <;> simp [disconnect, ht, hws]
    rw [hat] at hmem
    have h1 := ((mem_clearTimers _ _).mp hmem).1
    exact (mem_clearTimer.mp h1).2 rfl
  · intro s hs
    cases hrt : st.reconnectTimeout <;> simp [disconnect, hrt, hs]
  · cases hrt : st.reconnectTimeout <;> cases hws : st.ws <;> simp [disconnect, hrt, hws]
  · cases hrt : st.reconnectTimeout <;> cases hws : st.ws <;> simp [disconnect, hrt, hws]
  · cases hrt : st.reconnectTimeout <;> cases hws : st.ws <;> simp [disconnect, hrt, hws]

theorem c7_witness :
    ({ initState with
        ws := some ⟨ReadyState.OPEN, 3⟩, isConnected := true,
        pending := [("a", 0)], activeTimers := [(0, TimerKind.reqTimeout "a")],
        nextTimer := 1, nextSocket := 4, registered := ["a"] } : WSState).ws =
      some ⟨ReadyState.OPEN, 3⟩ ∧
    (disconnect { initState with
        ws := some ⟨ReadyState.OPEN, 3⟩, isConnected := true,
        pending := [("a", 0)], activeTimers := [(0, TimerKind.reqTimeout "a")],
        nextTimer := 1, nextSocket := 4, registered := ["a"] }).pending = [] ∧
    (disconnect { initState with
        ws := some ⟨ReadyState.OPEN, 3⟩, isConnected := true,
        pending := [("a", 0)], activeTimers := [(0, TimerKind.reqTimeout "a")],
        nextTimer := 1, nextSocket := 4, registered := ["a"] }).reconnectAttempts =
      maxReconnectAttempts := by
  refine ⟨rfl, ?_, ?_⟩
  · exact (c7_disconnect_cleanup _).2.2.2.2.2.1
  · exact (c7_disconnect_cleanup _).1

/-! ## Claim C2: reconnect backoff policy -/

theorem clearTimers_nil (ts : List (Nat × TimerKind)) : clearTimers [] ts = ts := rfl

/-- C2: the delay scheduled by `onclose` before the n-th consecutive retry
is `min(1000 * 2 ^ n, 10000)` ms — the sequence 1000, 2000, 4000, 8000,
10000 for attempts 0 through 4; a close with the retry budget exhausted
(5 or more recorded attempts) schedules no reconnect and leaves the manager
disconnected; and a disconnected quiescent state stays disconnected under
every event except an explicit `connect` call. -/
theorem c2_backoff_policy :
    ((List.range maxReconnectAttempts).map (fun n => min (1000 * 2 ^ n) 10000) =
      [1000, 2000, 4000, 8000, 10000]) ∧
    (∀ (st : WSState) (s : Socket), st.ws = some s →
      st.reconnectAttempts < maxReconnectAttempts →
      (onclose st).scheduledDelays =
        st.scheduledDelays ++ [min (1000 * 2 ^ st.reconnectAttempts) 10000] ∧
      (onclose st).reconnectTimeout = some st.nextTimer ∧
      (st.nextTimer, TimerKind.reconnect) ∈ (onclose st).activeTimers) ∧
    (∀ (st : WSState) (s : Socket), st.ws = some s →
      maxReconnectAttempts ≤ st.reconnectAttempts →
      (onclose st).scheduledDelays = st.scheduledDelays ∧
      (onclose st).reconnectTimeout = st.reconnectTimeout ∧
      (onclose st).ws = none ∧ (onclose st).isConnected = false) ∧
    (∀ (st : WSState), Quiescent st → ∀ e : Event,
      (∀ ip port, e ≠ Event.userConnect ip port) → Quiescent (step st e)) := by
  refine ⟨by decide, ?_, ?_, ?_⟩
  · intro st s hws hlt
    simp only [onclose, hws, notifyConnectionHandlers]
    rw [if_pos hlt]
    exact ⟨rfl, rfl, List.mem_append_right _ (by simp)⟩
  · intro st s hws hge
    simp only [onclose, hws, notifyConnectionHandlers]
    rw [if_neg (not_lt.mpr hge)]
    exact ⟨rfl, rfl, rfl, rfl⟩
  · intro st hq e hne
    obtain ⟨hws, hc, hat, hp⟩ := hq
    cases e with
    | userConnect ip port => exact absurd rfl (hne ip port)
    | transportOpen =>
      simp only [step, onopen, hws]
      exact ⟨hws, hc, hat, hp⟩
    | transportMessage msg =>
      simp only [step, hws]
      exact ⟨hws, hc, hat, hp⟩
    | transportClose =>
      simp only [step, onclose, hws]
      exact ⟨hws, hc, hat, hp⟩
    | userDisconnect =>
      cases hrt : st.reconnectTimeout <;>
        simp [step, disconnect, hws, hp, hat, hrt, Quiescent, clearTimers_nil, clearTimer]
    | userSend freshId th =>
      by_cases hf : freshId ∈ st.registered
      · simp only [step, if_pos hf]
        exact ⟨hws, hc, hat, hp⟩
      · simp only [step, if_neg hf]
        have hsr : sendRequest freshId th st =
            { st with sendCalls := st.sendCalls ++ [SendOutcome.notConnected] } := by
          simp [sendRequest, hws, readyOpen]
        rw [hsr]
        exact ⟨hws, hc, hat, hp⟩
    | timerFires t =>
      simp only [step, fireTimer, hat, timerLookup]
      exact ⟨hws, hc, hat, hp⟩
    | addMessageHandlerEv h => exact ⟨hws, hc, hat, hp⟩
    | removeMessageHandlerEv h => exact ⟨hws, hc, hat, hp⟩
    | addConnectionHandlerEv h => exact ⟨hws, hc, hat, hp⟩
    | removeConnectionHandlerEv h => exact ⟨hws, hc, hat, hp⟩

theorem c2_witness :
    (onclose { initState with ws := some ⟨ReadyState.CONNECTING, 0⟩ }).scheduledDelays =
      [1000] ∧
    (onclose { initState with
        ws := some ⟨ReadyState.CONNECTING, 0⟩,
        reconnectAttempts := 5 }).scheduledDelays = [] ∧
    Quiescent (step initState Event.userDisconnect) := by
  refine ⟨?_, ?_, ?_⟩
  · have h := (c2_backoff_policy.2.1 { initState with ws := some ⟨ReadyState.CONNECTING, 0⟩ }
      ⟨ReadyState.CONNECTING, 0⟩ rfl (by decide)).1
    simpa using h
  · have h := (c2_backoff_policy.2.2.1
      { initState with
        ws := some ⟨ReadyState.CONNECTING, 0⟩,
        reconnectAttempts := 5 } ⟨ReadyState.CONNECTING, 0⟩ rfl (by decide)).1
    simpa using h
  · exact c2_backoff_policy.2.2.2 initState ⟨rfl, rfl, rfl, rfl⟩ Event.userDisconnect
      (fun ip port h => Event.noConfusion h)

/-! ## Claim C4 (code bug): connect while Connecting is not a no-op -/

/-- C4 evaluated at the failing input.  `connect`'s second guard reads a
stale closure value of `isConnecting` (always the first render's `false`,
because `useCallback` is given an empty dependency list), so a `connect`
call made while a transport is already being opened (socket 0 in
`CONNECTING` state, current `isConnecting` state `true`) is *not* a no-op:
it closes the in-flight socket 0, overwrites the stored server config and
opens a duplicate transport (socket 1) — contradicting the source's own
comment "Don't reconnect if already connected or connecting".  (Only the
`readyState === OPEN` guard works, so `connect` while `Connected` is indeed
a no-op.) -/
theorem c4_connect_while_connecting_not_noop :
    c4State.ws = some ⟨ReadyState.CONNECTING, 0⟩ ∧
    c4State.isConnecting = true ∧
    (connect false "10.0.0.2" "9000" c4State).ws = some ⟨ReadyState.CONNECTING, 1⟩ ∧
    (connect false "10.0.0.2" "9000" c4State).closedSockets = [0] ∧
    (connect false "10.0.0.2" "9000" c4State).serverConfig = ("10.0.0.2", "9000") ∧
    connect false "10.0.0.2" "9000" c4State ≠ c4State := by
  refine ⟨rfl, rfl, rfl, rfl, rfl, ?_⟩
  intro h
  exact absurd (congrArg WSState.nextSocket h) (by decide)

/-! ## Claim C10: atomicity of sendRequest when the transport send throws -/

/-- C10: if the transport `send` throws during a `sendRequest` call made
while `OPEN`, the freshly registered entry is removed again, its timeout
timer is disarmed, and the returned promise is rejected with the thrown
error — the Pending Request Table and the armed-timer set after the failed
call equal those before it.  (The two freshness hypotheses are the `Map`-key
and timer-handle uniqueness that hold in every reachable state.) -/
theorem c10_send_throw_atomic (st : WSState) (freshId : String)
    (hopen : readyOpen st.ws = true)
    (hfresh : freshId ∉ pendingIds st)
    (htfresh : ∀ tk ∈ st.activeTimers, tk.1 ≠ st.nextTimer) :
    (sendRequest freshId true st).pending = st.pending ∧
    (sendRequest freshId true st).activeTimers = st.activeTimers ∧
    (sendRequest freshId true st).settleLog =
      st.settleLog ++ [(freshId, Settle.sendError)] ∧
    (sendRequest freshId true st).sendCalls =
      st.sendCalls ++ [SendOutcome.sendThrew freshId] ∧
    (sendRequest freshId true st).registered = st.registered ++ [freshId] := by
  have hp : (st.pending ++ [(freshId, st.nextTimer)]).filter
      (fun p => p.1 ≠ freshId) = st.pending := by
    rw [List.filter_append]
    have h1 : st.pending.filter (fun p => p.1 ≠ freshId) = st.pending := by
      rw [List.filter_eq_self]
      intro p hmem
      simp only [ne_eq, decide_not, Bool.not_eq_true', decide_eq_false_iff_not]
      exact fun hc => hfresh (hc ▸ List.mem_map_of_mem Prod.fst hmem)
    rw [h1]
    simp
  have ht : clearTimer st.nextTimer
      (st.activeTimers ++ [(st.nextTimer, TimerKind.reqTimeout freshId)]) =
      st.activeTimers := by
    rw [clearTimer, List.filter_append]
    have h1 : st.activeTimers.filter (fun tk => tk.1 ≠ st.nextTimer) = st.activeTimers := by
      rw [List.filter_eq_self]
      intro tk hmem
      simp only [ne_eq, decide_not, Bool.not_eq_true', decide_eq_false_iff_not]
      exact htfresh tk hmem
    rw [h1]
    simp
  have hsr : sendRequest freshId true st =
      { st with idsGenerated := st.idsGenerated + 1,
                nextTimer := st.nextTimer + 1,
                settleLog := st.settleLog ++ [(freshId, Settle.sendError)],
                sendCalls := st.sendCalls ++ [SendOutcome.sendThrew freshId],
                registered := st.registered ++ [freshId] } := by
    simp only [sendRequest, hopen, Bool.not_true]
    rw [if_pos trivial, hp, ht, if_neg Bool.false_ne_true]
  rw [hsr]
  exact ⟨rfl, rfl, rfl, rfl, rfl⟩

theorem c10_witness :
    readyOpen ({ initState with ws := some ⟨ReadyState.OPEN, 0⟩ } : WSState).ws = true ∧
    (sendRequest "r9" true { initState with ws := some ⟨ReadyState.OPEN, 0⟩ }).pending = [] ∧
    (sendRequest "r9" true { initState with ws := some ⟨ReadyState.OPEN, 0⟩ }).settleLog =
      [("r9", Settle.sendError)] := by
  refine ⟨rfl, ?_, ?_⟩
  · have h := (c10_send_throw_atomic { initState with ws := some ⟨ReadyState.OPEN, 0⟩ } "r9"
      rfl (by simp [pendingIds, initState]) (by intro tk htk; simp [initState] at htk)).1
    simpa using h
  · have h := (c10_send_throw_atomic { initState with ws := some ⟨ReadyState.OPEN, 0⟩ } "r9"
      rfl (by simp [pendingIds, initState]) (by intro tk htk; simp [initState] at htk)).2.2.1
    simpa using h

/-! ## Claim C1: the reachability invariant and exactly-once settlement -/

theorem nodup_concat {α : Type} {l : List α} {a : α} (h : l.Nodup) (ha : a ∉ l) :
    (l ++ [a]).Nodup := by
  rw [List.nodup_append]
  exact ⟨h, List.nodup_singleton a, by simpa [List.disjoint_singleton] using ha⟩

theorem count_append (l l' : List (String × Settle)) (id : String) :
    ((l ++ l').filter (fun p => p.1 = id)).length =
      (l.filter (fun p => p.1 = id)).length + (l'.filter (fun p => p.1 = id)).length := by
  rw [List.filter_append, List.length_append]

theorem filter_key_length_zero_iff {β : Type} {id : String} {l : List (String × β)} :
    (l.filter (fun p => p.1 = id)).length = 0 ↔ id ∉ l.map Prod.fst := by
  constructor
  · intro h0 hmem
    rcases List.mem_map.mp hmem with ⟨p, hp, he⟩
    have hf : p ∈ l.filter (fun p => p.1 = id) := List.mem_filter.mpr ⟨hp, by simp [he]⟩
    rw [List.length_eq_zero] at h0
    rw [h0] at hf
    simp at hf
  · exact filter_key_length_zero

theorem keys_not_mem_of_fresh {st : WSState} (hI : Inv st) :
    st.nextTimer ∉ st.activeTimers.map Prod.fst := by
  intro hmem
  rcases List.mem_map.mp hmem with ⟨tk, htk, he⟩
  exact absurd (he ▸ hI.timerFresh tk htk) (lt_irrefl _)

theorem inv_init : Inv initState := by
  refine ⟨?_, ?_, ?_, ?_, ?_, ?_, ?_, ?_, ?_, ?_, ?_⟩ <;>
    simp [initState, pendingIds, settleCount]

theorem inv_congr (st st' : WSState)
    (hp : st'.pending = st.pending)
    (ht : st'.activeTimers = st.activeTimers)
    (hs : st'.settleLog = st.settleLog)
    (hr : st'.registered = st.registered)
    (hn : st.nextTimer ≤ st'.nextTimer)
    (hrt : st'.reconnectTimeout = st.reconnectTimeout ∨ st'.reconnectTimeout = none)
    (hI : Inv st) : Inv st' := by
  have hpids : pendingIds st' = pendingIds st := by
    simp only [pendingIds]
    rw [hp]
  have hcount : ∀ id, settleCount st' id = settleCount st id := by
    intro id
    simp only [settleCount]
    rw [hs]
  constructor
  · rw [hr]; exact hI.regNodup
  · rw [hpids]; exact hI.pendNodup
  · rw [hpids, hr]; exact hI.pendSub
  · rw [hs, hr]; exact hI.settleSub
  · intro id hid
    rw [hr] at hid
    rw [hcount, hpids]
    exact hI.once id hid
  · rw [hs]; exact hI.kinds
  · intro t rid
    rw [ht, hp]
    exact hI.timerPend t rid
  · rw [ht]; exact hI.keysNodup
  · intro tk hmem
    rw [ht] at hmem
    exact lt_of_lt_of_le (hI.timerFresh tk hmem) hn
  · intro t hrt'
    rcases hrt with heq | hnone
    · rw [heq] at hrt'
      exact lt_of_lt_of_le (hI.rtFresh t hrt') hn
    · rw [hnone] at hrt'
      exact absurd hrt' (by simp)
  · intro t hrt' rid hmem
    rw [ht] at hmem
    rcases hrt with heq | hnone
    · rw [heq] at hrt'
      exact hI.rtKind t hrt' rid hmem
    · rw [hnone] at hrt'
      exact absurd hrt' (by simp)

theorem inv_sendRequest (st : WSState) (hI : Inv st) (freshId : String) (th : Bool)
    (hfresh : freshId ∉ st.registered) : Inv (sendRequest freshId th st) := by
  by_cases hopen : readyOpen st.ws = true
  case neg =>
    have hns : readyOpen st.ws = false := by
      cases hro : readyOpen st.ws
      · rfl
      · exact absurd hro hopen
    have hsr : sendRequest freshId th st =
        { st with sendCalls := st.sendCalls ++ [SendOutcome.notConnected] } := by
      simp [sendRequest, hns]
    rw [hsr]
    exact inv_congr st _ rfl rfl rfl rfl le_rfl (Or.inl rfl) hI
  case pos =>
    have hfreshp : freshId ∉ pendingIds st := fun h => hfresh (hI.pendSub _ h)
    have hlogfresh : freshId ∉ st.settleLog.map Prod.fst := by
      intro hmem
      rcases List.mem_map.mp hmem with ⟨p, hp, he⟩
      exact hfresh (he ▸ hI.settleSub p hp)
    have hTn := keys_not_mem_of_fresh hI
    have hregNodup : (st.registered ++ [freshId]).Nodup := nodup_concat hI.regNodup hfresh
    cases th with
    | false =>
      have hsr : sendRequest freshId false st =
          { st with idsGenerated := st.idsGenerated + 1,
                    nextTimer := st.nextTimer + 1,
                    activeTimers := st.activeTimers ++
                      [(st.nextTimer, TimerKind.reqTimeout freshId)],
                    pending := st.pending ++ [(freshId, st.nextTimer)],
                    registered := st.registered ++ [freshId],
                    sendCalls := st.sendCalls ++ [SendOutcome.registered freshId] } := by
        simp only [sendRequest, hopen, Bool.not_true]
        rw [if_neg Bool.false_ne_true, if_neg Bool.false_ne_true]
      rw [hsr]
      have hpids : pendingIds { st with
          idsGenerated := st.idsGenerated + 1,
          nextTimer := st.nextTimer + 1,
          activeTimers := st.activeTimers ++ [(st.nextTimer, TimerKind.reqTimeout freshId)],
          pending := st.pending ++ [(freshId, st.nextTimer)],
          registered := st.registered ++ [freshId],
          sendCalls := st.sendCalls ++ [SendOutcome.registered freshId] } =
          pendingIds st ++ [freshId] := by
        simp [pendingIds]
      constructor
      · exact hregNodup
      · rw [hpids]
        exact nodup_concat hI.pendNodup hfreshp
      · intro id hid
        rw [hpids] at hid
        rcases List.mem_append.mp hid with h | h
        · exact List.mem_append_left _ (hI.pendSub id h)
        · exact List.mem_append_right _ h
      · intro p hp
        exact List.mem_append_left _ (hI.settleSub p hp)
      · intro id hid
        rcases List.mem_append.mp hid with hid' | hid'
        · have hne : id ≠ freshId := fun hc => hfresh (hc ▸ hid')
          have h0 := hI.once id hid'
          refine ⟨h0.1, ?_⟩
          rw [hpids, List.mem_append]
          constructor
          · intro hz
            exact Or.inl (h0.2.mp hz)
          · rintro (hmem | hmem)
            · exact h0.2.mpr hmem
            · exact absurd (List.mem_singleton.mp hmem) hne
        · have hid0 : id = freshId := List.mem_singleton.mp hid'
          subst hid0
          have hz : settleCount st id = 0 := filter_key_length_zero_iff.mpr hlogfresh
          refine ⟨?_, ?_⟩
          · show settleCount st id ≤ 1
            omega
          · rw [hpids, List.mem_append]
            show settleCount st id = 0 ↔ _
            simp [hz]
      · intro p hp
        exact hI.kinds p hp
      · intro t rid
        simp only [List.mem_append, List.mem_singleton]
        rw [hI.timerPend t rid]
        constructor
        · rintro (h | h)
          · exact Or.inl h
          · injection h with h1 h2
            injection h2 with h2
            subst h1
            subst h2
            exact Or.inr rfl
        · rintro (h | h)
          · exact Or.inl h
          · injection h with h1 h2
            subst h1
            subst h2
            exact Or.inr rfl
      · show ((st.activeTimers ++ [(st.nextTimer, TimerKind.reqTimeout freshId)]).map
          Prod.fst).Nodup
        rw [List.map_append]
        exact nodup_concat hI.keysNodup hTn
      · intro tk hmem
        rcases List.mem_append.mp hmem with h | h
        · exact lt_trans (hI.timerFresh tk h) (Nat.lt_succ_self _)
        · rw [List.mem_singleton.mp h]
          exact Nat.lt_succ_self _
      · intro t hrt
        exact lt_trans (hI.rtFresh t hrt) (Nat.lt_succ_self _)
      · intro t hrt rid hmem
        rcases List.mem_append.mp hmem with h | h
        · exact hI.rtKind t hrt rid h
        · have h' := List.mem_singleton.mp h
          injection h' with h1 h2
          subst h1
          exact absurd (hI.rtFresh _ hrt) (lt_irrefl _)
    | true =>
      have hp : (st.pending ++ [(freshId, st.nextTimer)]).filter
          (fun p => p.1 ≠ freshId) = st.pending := by
        rw [List.filter_append]
        have h1 : st.pending.filter (fun p => p.1 ≠ freshId) = st.pending := by
          rw [List.filter_eq_self]
          intro p hmem
          simp only [ne_eq, decide_not, Bool.not_eq_true', decide_eq_false_iff_not]
          exact fun hc => hfreshp (hc ▸ List.mem_map_of_mem Prod.fst hmem)
        rw [h1]
        simp
      have ht : clearTimer st.nextTimer
          (st.activeTimers ++ [(st.nextTimer, TimerKind.reqTimeout freshId)]) =
          st.activeTimers := by
        rw [clearTimer, List.filter_append]
        have h1 : st.activeTimers.filter (fun tk => tk.1 ≠ st.nextTimer) = st.activeTimers := by
          rw [List.filter_eq_self]
          intro tk hmem
          simp only [ne_eq, decide_not, Bool.not_eq_true', decide_eq_false_iff_not]
          intro hc
          exact absurd (hc ▸ hI.timerFresh tk hmem) (lt_irrefl _)
        rw [h1]
        simp
      have hsr : sendRequest freshId true st =
          { st with idsGenerated := st.idsGenerated + 1,
                    nextTimer := st.nextTimer + 1,
                    settleLog := st.settleLog ++ [(freshId, Settle.sendError)],
                    sendCalls := st.sendCalls ++ [SendOutcome.sendThrew freshId],
                    registered := st.registered ++ [freshId] } := by
        simp only [sendRequest, hopen, Bool.not_true]
        rw [if_pos trivial, hp, ht, if_neg Bool.false_ne_true]
      rw [hsr]
      have hcnt : ∀ id, settleCount { st with
          idsGenerated := st.idsGenerated + 1,
          nextTimer := st.nextTimer + 1,
          settleLog := st.settleLog ++ [(freshId, Settle.sendError)],
          sendCalls := st.sendCalls ++ [SendOutcome.sendThrew freshId],
          registered := st.registered ++ [freshId] } id =
          settleCount st id +
            (([(freshId, Settle.sendError)] : List (String × Settle)).filter
              (fun p => p.1 = id)).length := by
        intro id
        simp only [settleCount]
        exact count_append _ _ id
      constructor
      · exact hregNodup
      · exact hI.pendNodup
      · intro id hid
        exact List.mem_append_left _ (hI.pendSub id hid)
      · intro p hp'
        rcases List.mem_append.mp hp' with h | h
        · exact List.mem_append_left _ (hI.settleSub p h)
        · rw [List.mem_singleton.mp h]
          exact List.mem_append_right _ (List.mem_singleton_self _)
      · intro id hid
        rw [hcnt]
        rcases List.mem_append.mp hid with hid' | hid'
        · have hne : id ≠ freshId := fun hc => hfresh (hc ▸ hid')
          have h0 := hI.once id hid'
          have hz : (([(freshId, Settle.sendError)] : List (String × Settle)).filter
              (fun p => p.1 = id)).length = 0 := by
            simp [Ne.symm hne]
          rw [hz]
          simpa using h0
        · have hid0 : id = freshId := List.mem_singleton.mp hid'
          subst hid0
          have hz : settleCount st id = 0 := filter_key_length_zero_iff.mpr hlogfresh
          have ho : (([(id, Settle.sendError)] : List (String × Settle)).filter
              (fun p => p.1 = id)).length = 1 := by simp
          rw [hz, ho]
          refine ⟨le_rfl, ?_⟩
          simp only [Nat.zero_add]
          constructor
          · intro hc
            exact absurd hc one_ne_zero
          · intro hmem
            exact absurd hmem hfreshp
      · intro p hp'
        rcases List.mem_append.mp hp' with h | h
        · exact hI.kinds p h
        · rw [List.mem_singleton.mp h]
          exact trivial
      · intro t rid
        exact hI.timerPend t rid
      · exact hI.keysNodup
      · intro tk hmem
        exact lt_trans (hI.timerFresh tk hmem) (Nat.lt_succ_self _)
      · intro t hrt
        exact lt_trans (hI.rtFresh t hrt) (Nat.lt_succ_self _)
      · intro t hrt rid hmem
        exact hI.rtKind t hrt rid hmem

theorem count_append_single (l : List (String × Settle)) (rid : String) (k : Settle)
    (id : String) :
    ((l ++ [(rid, k)]).filter (fun p => p.1 = id)).length =
      (l.filter (fun p => p.1 = id)).length + (if rid = id then 1 else 0) := by
  rw [count_append]
  congr 1
  by_cases h : rid = id <;> simp [h]

theorem mem_pendingIds_filter {id rid : String} {ps : List (String × Nat)} :
    id ∈ (ps.filter (fun p => p.1 ≠ rid)).map Prod.fst ↔
      id ∈ ps.map Prod.fst ∧ id ≠ rid := by
  simp only [List.mem_map, List.mem_filter]
  constructor
  · rintro ⟨p, ⟨hp, hne⟩, rfl⟩
    refine ⟨⟨p, hp, rfl⟩, ?_⟩
    simpa using hne
  · rintro ⟨⟨p, hp, rfl⟩, hne⟩
    exact ⟨p, ⟨hp, by simpa using hne⟩, rfl⟩

/-- Settling one pending entry — the common shape of a matched response
(`onmessage`) and a firing request timeout — preserves the invariant. -/
theorem inv_settle_one (st : WSState) (hI : Inv st) (rid : String) (t : Nat)
    (hmem : (rid, t) ∈ st.pending) (k : Settle) (hk : settleKindOk (rid, k)) :
    Inv { st with
          activeTimers := clearTimer t st.activeTimers,
          pending := st.pending.filter (fun p => p.1 ≠ rid),
          settleLog := st.settleLog ++ [(rid, k)] } := by
  have hridpend : rid ∈ pendingIds st := List.mem_map_of_mem Prod.fst hmem
  have hridreg : rid ∈ st.registered := hI.pendSub rid hridpend
  have hcnt0 : settleCount st rid = 0 := (hI.once rid hridreg).2.mpr hridpend
  have htmem : (t, TimerKind.reqTimeout rid) ∈ st.activeTimers :=
    (hI.timerPend t rid).mpr hmem
  constructor
  · exact hI.regNodup
  · show ((st.pending.filter (fun p => p.1 ≠ rid)).map Prod.fst).Nodup
    exact hI.pendNodup.sublist ((List.filter_sublist st.pending).map Prod.fst)
  · intro id hid
    have h' := mem_pendingIds_filter.mp hid
    exact hI.pendSub id h'.1
  · intro p hp
    rcases List.mem_append.mp hp with h | h
    · exact hI.settleSub p h
    · rw [List.mem_singleton.mp h]
      exact hridreg
  · intro id hid
    have hbase := hI.once id hid
    simp only [settleCount, pendingIds] at hbase hcnt0 ⊢
    rw [count_append_single st.settleLog rid k id]
    by_cases hidr : id = rid
    · subst hidr
      rw [hcnt0, if_pos rfl]
      refine ⟨le_rfl, ?_⟩
      constructor
      · intro hc
        exact absurd hc (by simp)
      · intro hmem'
        exact absurd (mem_pendingIds_filter.mp hmem').2 (by simp)
    · rw [if_neg (fun hc => hidr hc.symm), Nat.add_zero]
      refine ⟨hbase.1, ?_⟩
      rw [hbase.2]
      constructor
      · intro hmem'
        exact mem_pendingIds_filter.mpr ⟨hmem', hidr⟩
      · intro hmem'
        exact (mem_pendingIds_filter.mp hmem').1
  · intro p hp
    rcases List.mem_append.mp hp with h | h
    · exact hI.kinds p h
    · rw [List.mem_singleton.mp h]
      exact hk
  · intro t' rid'
    rw [mem_clearTimer, hI.timerPend t' rid', List.mem_filter]
    constructor
    · rintro ⟨hpmem, hne⟩
      have hne' : t' ≠ t := hne
      have hrne : rid' ≠ rid := by
        intro hc
        apply hne'
        exact keys_nodup_inj hI.pendNodup (hc ▸ hpmem) hmem
      exact ⟨hpmem, by simpa using hrne⟩
    · rintro ⟨hpmem, hrneb⟩
      have hrne : rid' ≠ rid := by simpa using hrneb
      refine ⟨hpmem, ?_⟩
      show t' ≠ t
      intro hc
      apply hrne
      have h1 : (t, TimerKind.reqTimeout rid') ∈ st.activeTimers := by
        rw [← hc]
        exact (hI.timerPend t' rid').mpr hpmem
      have h2 := keys_nodup_inj hI.keysNodup h1 htmem
      injection h2 with h3
  · show (((clearTimer t st.activeTimers)).map Prod.fst).Nodup
    exact hI.keysNodup.sublist ((clearTimer_sublist t st.activeTimers).map Prod.fst)
  · intro tk hmem'
    exact hI.timerFresh tk (mem_clearTimer.mp hmem').1
  · intro t' hrt
    exact hI.rtFresh t' hrt
  · intro t' hrt rid' hmem'
    exact hI.rtKind t' hrt rid' (mem_clearTimer.mp hmem').1

/-- Clearing a timer handle that is not a request-timeout handle (here: a
scheduled reconnect handle) preserves the invariant. -/
theorem inv_clear_nonreq (st : WSState) (hI : Inv st) (t : Nat)
    (hnr : ∀ rid, (t, TimerKind.reqTimeout rid) ∉ st.activeTimers) :
    Inv { st with activeTimers := clearTimer t st.activeTimers } := by
  constructor
  · exact hI.regNodup
  · exact hI.pendNodup
  · exact hI.pendSub
  · exact hI.settleSub
  · exact hI.once
  · exact hI.kinds
  · intro t' rid
    rw [mem_clearTimer]
    constructor
    · rintro ⟨h, _⟩
      exact (hI.timerPend t' rid).mp h
    · intro h
      have hmem := (hI.timerPend t' rid).mpr h
      refine ⟨hmem, ?_⟩
      show t' ≠ t
      intro hc
      subst hc
      exact hnr rid hmem
  · exact hI.keysNodup.sublist ((clearTimer_sublist t st.activeTimers).map Prod.fst)
  · intro tk hmem
    exact hI.timerFresh tk (mem_clearTimer.mp hmem).1
  · exact hI.rtFresh
  · intro t' hrt rid hmem
    exact hI.rtKind t' hrt rid (mem_clearTimer.mp hmem).1

/-- Cancelling the scheduled reconnect (`clearTimeout` + nulling the ref)
preserves the invariant. -/
theorem inv_clear_reconnect (st : WSState) (hI : Inv st) (t0 : Nat)
    (hrt : st.reconnectTimeout = some t0) :
    Inv { st with activeTimers := clearTimer t0 st.activeTimers,
                  reconnectTimeout := none } := by
  have h1 := inv_clear_nonreq st hI t0 (fun rid => hI.rtKind t0 hrt rid)
  exact inv_congr { st with activeTimers := clearTimer t0 st.activeTimers } _
    rfl rfl rfl rfl le_rfl (Or.inr rfl) h1

theorem filter_key_map_settle (ps : List (String × Nat)) (k : Settle) (id : String) :
    ((ps.map (fun p => (p.1, k))).filter (fun p => p.1 = id)).length =
      (ps.filter (fun p => p.1 = id)).length := by
  induction ps with
  | nil => rfl
  | cons p ps ih =>
    simp only [List.map_cons, List.filter_cons]
    by_cases h : p.1 = id <;> simp [h, ih]

/-- Rejecting every pending request (clearing each timer, emptying the
table, appending one rejection per entry to the ledger) preserves the
invariant — the shape shared by `onclose` and `disconnect`. -/
theorem inv_reject_all (st : WSState) (hI : Inv st) (k : Settle)
    (hkind : ∀ rid, settleKindOk (rid, k)) :
    Inv { st with activeTimers := clearTimers st.pending st.activeTimers,
                  settleLog := st.settleLog ++ st.pending.map (fun p => (p.1, k)),
                  pending := [] } := by
  constructor
  · exact hI.regNodup
  · show (([] : List (String × Nat)).map Prod.fst).Nodup
    simp
  · intro id hid
    exact absurd hid (List.not_mem_nil id)
  · intro p hp
    rcases List.mem_append.mp hp with h | h
    · exact hI.settleSub p h
    · rcases List.mem_map.mp h with ⟨q, hq, rfl⟩
      exact hI.pendSub q.1 (List.mem_map_of_mem Prod.fst hq)
  · intro id hid
    have hbase := hI.once id hid
    simp only [settleCount, pendingIds] at hbase ⊢
    rw [count_append, filter_key_map_settle]
    by_cases hp : id ∈ st.pending.map Prod.fst
    · rw [filter_key_length_one hI.pendNodup hp]
      have hz : (st.settleLog.filter (fun p => p.1 = id)).length = 0 := hbase.2.mpr hp
      rw [hz]
      refine ⟨le_rfl, ?_⟩
      simp
    · rw [filter_key_length_zero hp, Nat.add_zero]
      refine ⟨hbase.1, ?_⟩
      constructor
      · intro hc
        exact absurd (hbase.2.mp hc) hp
      · intro hc
        exact absurd hc (List.not_mem_nil id)
  · intro p hp
    rcases List.mem_append.mp hp with h | h
    · exact hI.kinds p h
    · rcases List.mem_map.mp h with ⟨q, _, rfl⟩
      exact hkind q.1
  · intro t rid
    constructor
    · intro hmem
      obtain ⟨hat, hne⟩ := (mem_clearTimers st.pending st.activeTimers).mp hmem
      have hpmem := (hI.timerPend t rid).mp hat
      exact absurd rfl (hne (rid, t) hpmem)
    · intro hmem
      exact absurd hmem (List.not_mem_nil _)
  · exact hI.keysNodup.sublist
      ((clearTimers_sublist st.pending st.activeTimers).map Prod.fst)
  · intro tk hmem
    exact hI.timerFresh tk ((mem_clearTimers _ _).mp hmem).1
  · exact hI.rtFresh
  · intro t hrt rid hmem
    exact hI.rtKind t hrt rid ((mem_clearTimers _ _).mp hmem).1

/-- Scheduling the reconnect timer (arming a fresh handle and storing it in
the ref) preserves the invariant. -/
theorem inv_schedule (st : WSState) (hI : Inv st) (sd : List Nat) :
    Inv { st with reconnectTimeout := some st.nextTimer,
                  activeTimers := st.activeTimers ++ [(st.nextTimer, TimerKind.reconnect)],
                  nextTimer := st.nextTimer + 1,
                  scheduledDelays := sd } := by
  have hTn := keys_not_mem_of_fresh hI
  constructor
  · exact hI.regNodup
  · exact hI.pendNodup
  · exact hI.pendSub
  · exact hI.settleSub
  · exact hI.once
  · exact hI.kinds
  · intro t rid
    rw [show ((t, TimerKind.reqTimeout rid) ∈
        st.activeTimers ++ [(st.nextTimer, TimerKind.reconnect)]) ↔
        ((t, TimerKind.reqTimeout rid) ∈ st.activeTimers ∨
          (t, TimerKind.reqTimeout rid) = (st.nextTimer, TimerKind.reconnect)) from by
      simp [List.mem_append]]
    constructor
    · rintro (h | h)
      · exact (hI.timerPend t rid).mp h
      · injection h with h1 h2
        exact absurd h2 (fun hc => TimerKind.noConfusion hc)
    · intro h
      exact Or.inl ((hI.timerPend t rid).mpr h)
  · show ((st.activeTimers ++ [(st.nextTimer, TimerKind.reconnect)]).map Prod.fst).Nodup
    rw [List.map_append]
    exact nodup_concat hI.keysNodup hTn
  · intro tk hmem
    rcases List.mem_append.mp hmem with h | h
    · exact lt_trans (hI.timerFresh tk h) (Nat.lt_succ_self _)
    · rw [List.mem_singleton.mp h]
      exact Nat.lt_succ_self _
  · intro t hrt
    injection hrt with hrt
    rw [← hrt]
    exact Nat.lt_succ_self _
  · intro t hrt rid hmem
    injection hrt with hrt
    subst hrt
    rcases List.mem_append.mp hmem with h | h
    · exact absurd (hI.timerFresh _ h) (lt_irrefl _)
    · injection List.mem_singleton.mp h with h1 h2
      exact TimerKind.noConfusion h2

theorem inv_onopen (st : WSState) (hI : Inv st) : Inv (onopen st) := by
  cases hws : st.ws with
  | none =>
    simp only [onopen, hws]
    exact hI
  | some s =>
    simp only [onopen, hws]
    by_cases h : s.readyState = ReadyState.CONNECTING
    · rw [if_pos h]
      exact inv_congr st _ rfl rfl rfl rfl le_rfl (Or.inl rfl) hI
    · rw [if_neg h]
      exact hI

theorem inv_onmessage (st : WSState) (hI : Inv st) (msg : Option Frame) :
    Inv (onmessage msg st) := by
  cases msg with
  | none => exact hI
  | some data =>
    cases hr : data.request_id with
    | none =>
      have heq : onmessage (some data) st =
          { st with msgNotifyLog :=
              st.msgNotifyLog ++ st.messageHandlers.map (fun h => (h, data)) } := by
        simp only [onmessage, hr]
      rw [heq]
      exact inv_congr st _ rfl rfl rfl rfl le_rfl (Or.inl rfl) hI
    | some rid =>
      cases hl : mapLookup rid st.pending with
      | none =>
        have heq : onmessage (some data) st =
            { st with msgNotifyLog :=
                st.msgNotifyLog ++ st.messageHandlers.map (fun h => (h, data)) } := by
          simp only [onmessage, hr, hl]
        rw [heq]
        exact inv_congr st _ rfl rfl rfl rfl le_rfl (Or.inl rfl) hI
      | some t =>
        have hmem : (rid, t) ∈ st.pending := mapLookup_mem hl
        have hs1 := inv_settle_one st hI rid t hmem (Settle.resolved data)
          (by simp [settleKindOk, hr])
        have heq : onmessage (some data) st =
            { st with
              activeTimers := clearTimer t st.activeTimers,
              pending := st.pending.filter (fun p => p.1 ≠ rid),
              settleLog := st.settleLog ++ [(rid, Settle.resolved data)],
              msgNotifyLog :=
                st.msgNotifyLog ++ st.messageHandlers.map (fun h => (h, data)) } := by
          simp only [onmessage, hr, hl]
        rw [heq]
        exact inv_congr { st with
            activeTimers := clearTimer t st.activeTimers,
            pending := st.pending.filter (fun p => p.1 ≠ rid),
            settleLog := st.settleLog ++ [(rid, Settle.resolved data)] } _
          rfl rfl rfl rfl le_rfl (Or.inl rfl) hs1

theorem inv_connect (st : WSState) (hI : Inv st) (b : Bool) (ip port : String) :
    Inv (connect b ip port st) := by
  by_cases h1 : readyOpen st.ws = true
  · have heq : connect b ip port st = st := by simp [connect, h1]
    rw [heq]
    exact hI
  · have hns : readyOpen st.ws = false := by
      cases hro : readyOpen st.ws
      · rfl
      · exact absurd hro h1
    cases b with
    | true =>
      have heq : connect true ip port st = st := by simp [connect, hns]
      rw [heq]
      exact hI
    | false =>
      cases hrt : st.reconnectTimeout with
      | none =>
        refine inv_congr st _ ?_ ?_ ?_ ?_ ?_ ?_ hI
        · cases hws : st.ws <;> (rw [hws] at hns; simp [connect, hns, hrt, hws])
        · cases hws : st.ws <;> (rw [hws] at hns; simp [connect, hns, hrt, hws])
        · cases hws : st.ws <;> (rw [hws] at hns; simp [connect, hns, hrt, hws])
        · cases hws : st.ws <;> (rw [hws] at hns; simp [connect, hns, hrt, hws])
        · cases hws : st.ws <;> (rw [hws] at hns; simp [connect, hns, hrt, hws])
        · left
          cases hws : st.ws <;> (rw [hws] at hns; simp [connect, hns, hrt, hws])
      | some t0 =>
        have hstep := inv_clear_reconnect st hI t0 hrt
        refine inv_congr { st with
            activeTimers := clearTimer t0 st.activeTimers,
            reconnectTimeout := none } _ ?_ ?_ ?_ ?_ ?_ ?_ hstep
        · cases hws : st.ws <;> (rw [hws] at hns; simp [connect, hns, hrt, hws])
        · cases hws : st.ws <;> (rw [hws] at hns; simp [connect, hns, hrt, hws])
        · cases hws : st.ws <;> (rw [hws] at hns; simp [connect, hns, hrt, hws])
        · cases hws : st.ws <;> (rw [hws] at hns; simp [connect, hns, hrt, hws])
        · cases hws : st.ws <;> (rw [hws] at hns; simp [connect, hns, hrt, hws])
        · right
          cases hws : st.ws <;> (rw [hws] at hns; simp [connect, hns, hrt, hws])

theorem inv_onclose (st : WSState) (hI : Inv st) : Inv (onclose st) := by
  cases hws : st.ws with
  | none =>
    simp only [onclose, hws]
    exact hI
  | some s =>
    have h1 := inv_reject_all st hI Settle.connectionClosed (fun _ => trivial)
    have h2 : Inv { st with
        isConnected := false, isConnecting := false, ws := none,
        connNotifyLog := st.connNotifyLog ++ st.connectionHandlers.map (fun h => (h, false)),
        activeTimers := clearTimers st.pending st.activeTimers,
        settleLog := st.settleLog ++ st.pending.map (fun p => (p.1, Settle.connectionClosed)),
        pending := [] } :=
      inv_congr { st with
          activeTimers := clearTimers st.pending st.activeTimers,
          settleLog := st.settleLog ++ st.pending.map (fun p => (p.1, Settle.connectionClosed)),
          pending := [] } _ rfl rfl rfl rfl le_rfl (Or.inl rfl) h1
    simp only [onclose, hws, notifyConnectionHandlers]
    by_cases h : st.reconnectAttempts < maxReconnectAttempts
    · rw [if_pos h]
      exact inv_schedule _ h2 _
    · rw [if_neg h]
      exact h2

theorem inv_disconnect (st : WSState) (hI : Inv st) : Inv (disconnect st) := by
  have hmid : Inv { st with reconnectAttempts := maxReconnectAttempts } :=
    inv_congr st _ rfl rfl rfl rfl le_rfl (Or.inl rfl) hI
  cases hrt : st.reconnectTimeout with
  | none =>
    have hra := inv_reject_all _ hmid Settle.disconnected (fun _ => trivial)
    refine inv_congr { st with
        reconnectAttempts := maxReconnectAttempts,
        activeTimers := clearTimers st.pending st.activeTimers,
        settleLog := st.settleLog ++ st.pending.map (fun p => (p.1, Settle.disconnected)),
        pending := [] } _ ?_ ?_ ?_ ?_ ?_ ?_ hra
    · cases hws : st.ws <;> simp [disconnect, hrt, hws]
    · cases hws : st.ws <;> simp [disconnect, hrt, hws]
    · cases hws : st.ws <;> simp [disconnect, hrt, hws]
    · cases hws : st.ws <;> simp [disconnect, hrt, hws]
    · cases hws : st.ws <;> simp [disconnect, hrt, hws]
    · left
      cases hws : st.ws <;> simp [disconnect, hrt, hws]
  | some t0 =>
    have hclear := inv_clear_reconnect _ hmid t0 hrt
    have hra := inv_reject_all _ hclear Settle.disconnected (fun _ => trivial)
    refine inv_congr { st with
        reconnectAttempts := maxReconnectAttempts,
        activeTimers := clearTimers st.pending (clearTimer t0 st.activeTimers),
        reconnectTimeout := none,
        settleLog := st.settleLog ++ st.pending.map (fun p => (p.1, Settle.disconnected)),
        pending := [] } _ ?_ ?_ ?_ ?_ ?_ ?_ hra
    · cases hws : st.ws <;> simp [disconnect, hrt, hws]
    · cases hws : st.ws <;> simp [disconnect, hrt, hws]
    · cases hws : st.ws <;> simp [disconnect, hrt, hws]
    · cases hws : st.ws <;> simp [disconnect, hrt, hws]
    · cases hws : st.ws <;> simp [disconnect, hrt, hws]
    · right
      cases hws : st.ws <;> simp [disconnect, hrt, hws]

theorem inv_fireTimer (st : WSState) (hI : Inv st) (t : Nat) : Inv (fireTimer t st) := by
  cases hl : timerLookup t st.activeTimers with
  | none =>
    simp only [fireTimer, hl]
    exact hI
  | some k =>
    have hkmem : (t, k) ∈ st.activeTimers := timerLookup_mem hl
    cases k with
    | reqTimeout rid =>
      have hpend : (rid, t) ∈ st.pending := (hI.timerPend t rid).mp hkmem
      have hlk : mapLookup rid st.pending = some t :=
        mapLookup_of_mem hI.pendNodup hpend
      have heq : fireTimer t st = { st with
          activeTimers := clearTimer t st.activeTimers,
          pending := st.pending.filter (fun p => p.1 ≠ rid),
          settleLog := st.settleLog ++ [(rid, Settle.timeoutExpired)] } := by
        simp [fireTimer, hl, requestTimeoutFire, hlk]
      rw [heq]
      exact inv_settle_one st hI rid t hpend Settle.timeoutExpired trivial
    | reconnect =>
      have hnr : ∀ rid, (t, TimerKind.reqTimeout rid) ∉ st.activeTimers := by
        intro rid hmem
        have h2 := keys_nodup_inj hI.keysNodup hmem hkmem
        exact TimerKind.noConfusion h2
      have hclear := inv_clear_nonreq st hI t hnr
      have hmid : Inv { st with
          activeTimers := clearTimer t st.activeTimers,
          reconnectAttempts := st.reconnectAttempts + 1 } :=
        inv_congr { st with activeTimers := clearTimer t st.activeTimers } _
          rfl rfl rfl rfl le_rfl (Or.inl rfl) hclear
      have heq : fireTimer t st = connect false st.serverConfig.1 st.serverConfig.2
          { st with
            activeTimers := clearTimer t st.activeTimers,
            reconnectAttempts := st.reconnectAttempts + 1 } := by
        simp only [fireTimer, hl]
      rw [heq]
      exact inv_connect _ hmid false _ _

theorem inv_step (st : WSState) (hI : Inv st) (e : Event) : Inv (step st e) := by
  cases e with
  | userConnect ip port => exact inv_connect st hI false ip port
  | transportOpen => exact inv_onopen st hI
  | transportMessage msg =>
    cases hws : st.ws with
    | none =>
      simp only [step, hws]
      exact hI
    | some s =>
      simp only [step, hws]
      exact inv_onmessage st hI msg
  | transportClose => exact inv_onclose st hI
  | userDisconnect => exact inv_disconnect st hI
  | userSend freshId th =>
    by_cases hf : freshId ∈ st.registered
    · simp only [step, if_pos hf]
      exact hI
    · simp only [step, if_neg hf]
      exact inv_sendRequest st hI freshId th hf
  | timerFires t => exact inv_fireTimer st hI t
  | addMessageHandlerEv h =>
    exact inv_congr st _ rfl rfl rfl rfl le_rfl (Or.inl rfl) hI
  | removeMessageHandlerEv h =>
    exact inv_congr st _ rfl rfl rfl rfl le_rfl (Or.inl rfl) hI
  | addConnectionHandlerEv h =>
    exact inv_congr st _ rfl rfl rfl rfl le_rfl (Or.inl rfl) hI
  | removeConnectionHandlerEv h =>
    exact inv_congr st _ rfl rfl rfl rfl le_rfl (Or.inl rfl) hI

theorem inv_run_aux :
    ∀ (evs : List Event) (st : WSState), Inv st → Inv (evs.foldl step st) := by
  intro evs
  induction evs with
  | nil => intro st h; exact h
  | cons e evs ih =>
    intro st h
    exact ih (step st e) (inv_step st h e)

theorem inv_run (evs : List Event) : Inv (run evs) :=
  inv_run_aux evs initState inv_init

/-- C1 counterexample: a request registered while `Connected` whose
transport `send` throws is settled by rejecting its promise with the thrown
error — which is neither a resolution with a matching payload, nor
`RequestTimeout`, nor `ConnectionClosed`, contradicting the claim's
enumeration of settlement outcomes. -/
theorem c1_counterexample :
    (run c1FailTrace).settleLog = [("r1", Settle.sendError)] ∧
    "r1" ∈ (run c1FailTrace).registered ∧
    claimC1SettleKind Settle.sendError = false := by
  refine ⟨by decide, by decide, rfl⟩

/-- C1 amended: for every trace of the event system (with identifiers
collision-free, as the design assumes), every request registered in the
Pending Request Table via `sendRequest` is settled exactly once — never both,
never neither: its settlement count never exceeds 1, it is 0 precisely while
the entry is still pending, every resolution carries the frame whose
`request_id` is the request's own identifier (the other settlements being
exactly one of RequestTimeout, ConnectionClosed, Disconnected, or the error
thrown by the transport send), and in any complete run — one with no
request-timeout timer still armed — every registered request has been
settled exactly once, so no entry is ever silently dropped. -/
theorem c1_exactly_once_amended (evs : List Event) :
    (∀ id ∈ (run evs).registered,
      settleCount (run evs) id ≤ 1 ∧
        (settleCount (run evs) id = 0 ↔ id ∈ pendingIds (run evs))) ∧
    (∀ p ∈ (run evs).settleLog, settleKindOk p) ∧
    (noReqTimers (run evs) → ∀ id ∈ (run evs).registered,
      settleCount (run evs) id = 1) := by
  have hI := inv_run evs
  refine ⟨hI.once, hI.kinds, ?_⟩
  intro hnt id hid
  rcases hI.once id hid with ⟨h1, h2⟩
  rcases Nat.eq_zero_or_pos (settleCount (run evs) id) with h0 | hpos
  · exfalso
    have hpend := h2.mp h0
    rcases List.mem_map.mp hpend with ⟨p, hp, he⟩
    have hmem : (id, p.2) ∈ (run evs).pending := by
      rw [← he]
      exact hp
    have htimer := (hI.timerPend p.2 id).mpr hmem
    have hflag := hnt _ htimer
    simp [isReqTimer] at hflag
  · omega

theorem c1_witness :
    noReqTimers (run c1Trace) ∧
    "q1" ∈ (run c1Trace).registered ∧
    settleCount (run c1Trace) "q1" = 1 := by
  have hat : (run c1Trace).activeTimers = [] := by decide
  have hnt : noReqTimers (run c1Trace) := by
    intro tk htk
    rw [hat] at htk
    exact absurd htk (List.not_mem_nil tk)
  exact ⟨hnt, by decide,
    (c1_exactly_once_amended c1Trace).2.2 hnt "q1" (by decide)⟩

end PingerApp
